import Mathlib

/-!
Shallow embedding of `src/server.py` (an MCP tool server for the VOICEVOX
text-to-speech engine).  The external world (HTTP engine, filesystem,
subprocesses) is modelled by explicit outcome environments, and every
observable side effect a handler performs is recorded in an effect trace.
Python floats are modelled as rationals; `pathlib.PurePosixPath` is modelled
by its parsed components; Python string `.lower()` is modelled for ASCII,
which is all the `.wav` comparison can distinguish.
-/

namespace Voicevox

/-- Binary audio payloads (`bytes` in Python) as lists of byte values. -/
abbrev Bytes := List Nat

/-- Module-level configuration `VOICEVOX_URL` (env default from the source). -/
def VOICEVOX_URL : String := "http://localhost:50021"

/-- Module-level configuration `SPEAKER_ID` (env default `8` from the source). -/
def SPEAKER_ID : Int := 8

/-- Python exceptions that the handlers' `except` clauses distinguish. -/
inductive Exc where
  | connectError
  | httpStatusError (status : Nat)
  | permissionError (msg : String)
  | fileNotFoundError (msg : String)
  | calledProcessError (returncode : Int)
  | valueError (msg : String)
  | otherExc (pyType : String) (msg : String)
deriving Repr, DecidableEq

/-- Python `type(e).__name__` of the Python exception. -/
def Exc.pyName : Exc → String
  | .connectError => "ConnectError"
  | .httpStatusError _ => "HTTPStatusError"
  | .permissionError _ => "PermissionError"
  | .fileNotFoundError _ => "FileNotFoundError"
  | .calledProcessError _ => "CalledProcessError"
  | .valueError _ => "ValueError"
  | .otherExc n _ => n

/-- Python `str(e)` of the Python exception (opaque where the claims never inspect it). -/
def Exc.pyStr : Exc → String
  | .connectError => ""
  | .httpStatusError s => "status " ++ toString s
  | .permissionError m => m
  | .fileNotFoundError m => m
  | .calledProcessError c => "returncode " ++ toString c
  | .valueError m => m
  | .otherExc _ m => m

/-- Result of one interaction with the outside world: either a value or a
raised Python exception. -/
inductive Outcome (α : Type) where
  | ok (a : α)
  | exc (e : Exc)
deriving Repr, DecidableEq

/-- The engine's `AudioQuery` JSON object: the four scale fields the server
overwrites, plus an opaque remainder. -/
structure AudioQuery where
  speedScale : ℚ
  pitchScale : ℚ
  intonationScale : ℚ
  volumeScale : ℚ
  rest : String
deriving Repr, DecidableEq

/-- The four assignments `audio_query["speedScale"] = speed` … from the source. -/
def applyScales (q : AudioQuery) (sp pi inv vo : ℚ) : AudioQuery :=
  { q with speedScale := sp, pitchScale := pi, intonationScale := inv, volumeScale := vo }

/-- Observable side effects a handler can perform, in order. -/
inductive Effect where
  | netGetVersion
  | netGetSpeakers
  | netPostAudioQuery (text : String) (speaker : Int)
  | netPostSynthesis (speaker : Int) (query : AudioQuery)
  | mkdirParents (path : String)
  | fileWrite (path : String) (data : Bytes)
  | tempWrite (data : Bytes)
  | runPlayer (path : String)
  | fileDelete (path : String)
  | sleepOneSec
  | composeUp
deriving Repr, DecidableEq

/-- Whether an effect is a network request. -/
def Effect.isNetwork : Effect → Bool
  | .netGetVersion => true
  | .netGetSpeakers => true
  | .netPostAudioQuery _ _ => true
  | .netPostSynthesis _ _ => true
  | _ => false

/-- Whether an effect is a subprocess invocation. -/
def Effect.isSubprocess : Effect → Bool
  | .runPlayer _ => true
  | .composeUp => true
  | _ => false

/-! ### Paths: the fragment of `pathlib.PurePosixPath` the server uses -/

/-- A parsed POSIX path: whether it is absolute, and its non-empty, non-`.`
components, as `pathlib` stores them. -/
structure PPath where
  absolute : Bool
  comps : List String
deriving Repr, DecidableEq

/-- Split a character list at every `/` (the pieces, slashes dropped). -/
def splitSlash : List Char → List Char → List (List Char)
  | [], acc => [acc.reverse]
  | c :: rest, acc =>
    if c = '/' then acc.reverse :: splitSlash rest [] else splitSlash rest (c :: acc)

/-- Models `pathlib.Path(s)` parsing (POSIX flavour): split on `/`, drop empty and
`.` components, remember whether the path is rooted. -/
def parsePath (s : String) : PPath :=
  { absolute := s.toList.head? == some '/'
    comps := ((splitSlash s.toList []).map String.mk).filter
      (fun c => !(c == "") && !(c == ".")) }

/-- Models `Path.name`: the final component, or `""` when there is none. -/
def PPath.name (p : PPath) : String := (p.comps.getLast?).getD ""

/-- Models `Path.parent`: drop the final component. -/
def PPath.parent (p : PPath) : PPath := { p with comps := p.comps.dropLast }

/-- Models `str(path)`. -/
def PPath.render (p : PPath) : String :=
  if p.absolute then "/" ++ String.intercalate "/" p.comps
  else if p.comps.isEmpty then "." else String.intercalate "/" p.comps

/-- Index of the last `.` in a list of characters, if any. -/
def lastDotIdx : List Char → Option Nat
  | [] => none
  | c :: cs =>
    match lastDotIdx cs with
    | some i => some (i + 1)
    | none => if c = '.' then some 0 else none

/-- Models `Path.suffix` on the characters of the name: `name[i:]` for the last dot
at index `i` when `0 < i < len(name) - 1`, else empty. -/
def suffixChars (cs : List Char) : List Char :=
  match lastDotIdx cs with
  | none => []
  | some i => if 0 < i ∧ i + 1 < cs.length then cs.drop i else []

/-- Models `Path.suffix` as a string. -/
def PPath.suffix (p : PPath) : String := String.mk (suffixChars p.name.toList)

/-- Python `str.lower` restricted to ASCII (all the `.wav` test can see). -/
def lowerChar (c : Char) : Char :=
  if 'A' ≤ c ∧ c ≤ 'Z' then Char.ofNat (c.toNat + 32) else c

/-- ASCII lowercase of a string. -/
def lowerStr (s : String) : String := String.mk (s.toList.map lowerChar)

/-- Models `Path.with_suffix(".wav")`: raises `ValueError` on an empty name,
otherwise appends `.wav` (no old suffix) or replaces the old suffix. -/
def PPath.withSuffixWav (p : PPath) : Except String PPath :=
  let nm := p.name
  if nm = "" then .error ("Invalid name " ++ nm)
  else
    let old := suffixChars nm.toList
    let newName :=
      if old.isEmpty then nm ++ ".wav"
      else String.mk (nm.toList.take (nm.toList.length - old.length)) ++ ".wav"
    .ok { p with comps := p.comps.dropLast ++ [newName] }

/-- Lines 160–162 of the source on a parsed path: if the suffix is not
`.wav` case-insensitively, replace it with `.wav`. -/
def normPath (p : PPath) : Except String PPath :=
  if lowerStr p.suffix = ".wav" then .ok p else p.withSuffixWav

/-- Output-path normalization of `save_audio` on the raw argument string. -/
def normalizeOutput (output_path : String) : Except String PPath :=
  normPath (parsePath output_path)

/-! ### Parameter validation (lines 150–157 and 239–246, identical in both) -/

/-- The four validated scale parameters. -/
inductive PName where
  | speedP | pitchP | intonationP | volumeP
deriving Repr, DecidableEq

/-- The parameter's name as it appears in the error message. -/
def PName.label : PName → String
  | .speedP => "speed"
  | .pitchP => "pitch"
  | .intonationP => "intonation"
  | .volumeP => "volume"

/-- Lower bound of the parameter's documented domain. -/
def PName.lo : PName → ℚ
  | .speedP => 0.5
  | .pitchP => -0.15
  | .intonationP => 0.0
  | .volumeP => 0.0

/-- Upper bound of the parameter's documented domain. -/
def PName.hi : PName → ℚ
  | .speedP => 2.0
  | .pitchP => 0.15
  | .intonationP => 2.0
  | .volumeP => 2.0

/-- The range text in the parameter's error message. -/
def PName.rangeText : PName → String
  | .speedP => "0.5から2.0"
  | .pitchP => "-0.15から0.15"
  | .intonationP => "0.0から2.0"
  | .volumeP => "0.0から2.0"

/-- Membership of a value in the parameter's documented domain. -/
def PName.inDomain (n : PName) (v : ℚ) : Prop := n.lo ≤ v ∧ v ≤ n.hi

instance (n : PName) (v : ℚ) : Decidable (n.inDomain v) := by
  unfold PName.inDomain; infer_instance

/-- The source's error string for one invalid parameter: it names the
parameter and the offending value. -/
def PName.errMsg (n : PName) (v : ℚ) : String :=
  "エラー: " ++ n.label ++ "は" ++ n.rangeText ++
    "の範囲で指定してください (指定値: " ++ toString v ++ ")"

/-- All four parameters lie in their documented domains. -/
def validAll (sp pi inv vo : ℚ) : Prop :=
  PName.speedP.inDomain sp ∧ PName.pitchP.inDomain pi ∧
  PName.intonationP.inDomain inv ∧ PName.volumeP.inDomain vo

instance (sp pi inv vo : ℚ) : Decidable (validAll sp pi inv vo) := by
  unfold validAll; infer_instance

/-- The source's validation block: check speed, pitch, intonation, volume in
that order and return the first failure's error string. -/
def validateParams (sp pi inv vo : ℚ) : Option String :=
  if ¬ (0.5 ≤ sp ∧ sp ≤ 2.0) then some (PName.speedP.errMsg sp)
  else if ¬ (-0.15 ≤ pi ∧ pi ≤ 0.15) then some (PName.pitchP.errMsg pi)
  else if ¬ (0.0 ≤ inv ∧ inv ≤ 2.0) then some (PName.intonationP.errMsg inv)
  else if ¬ (0.0 ≤ vo ∧ vo ≤ 2.0) then some (PName.volumeP.errMsg vo)
  else none

/-- The first out-of-domain parameter in the order speed, pitch, intonation,
volume, with its value. -/
def firstViolation (sp pi inv vo : ℚ) : Option (PName × ℚ) :=
  if ¬ PName.speedP.inDomain sp then some (.speedP, sp)
  else if ¬ PName.pitchP.inDomain pi then some (.pitchP, pi)
  else if ¬ PName.intonationP.inDomain inv then some (.intonationP, inv)
  else if ¬ PName.volumeP.inDomain vo then some (.volumeP, vo)
  else none

/-! ### Shared error strings -/

/-- The `httpx.ConnectError` message shared by all three handlers. -/
def connectErrMsg : String :=
  "エラー: VOICEVOX Engine (" ++ VOICEVOX_URL ++
    ") に接続できません。Dockerコンテナが起動しているか確認してください。"

/-- The `httpx.HTTPStatusError` message shared by all three handlers. -/
def apiErrMsg (status : Nat) : String :=
  "エラー: VOICEVOX API エラー (status: " ++ toString status ++ ")"

/-- The catch-all `except Exception` message shared by all three handlers. -/
def genericErrMsg (e : Exc) : String :=
  "エラー: " ++ e.pyName ++ ": " ++ e.pyStr

/-! ### Tool handler: list_speakers (lines 81–111) -/

/-- One style entry of a speaker in the `/speakers` catalog. -/
structure SpeakerStyle where
  styleName : String
  styleId : Int
deriving Repr, DecidableEq

/-- One speaker entry of the `/speakers` catalog. -/
structure SpeakerEntry where
  speakerName : String
  styles : List SpeakerStyle
deriving Repr, DecidableEq

/-- The line rendered for one (speaker, style) pair. -/
def styleLine (speakerName : String) (st : SpeakerStyle) : String :=
  "- " ++ speakerName ++ "（" ++ st.styleName ++ "）: speaker_id=" ++ toString st.styleId

/-- The lines of the catalog rendering: one per (speaker, style) pair. -/
def speakerLines (speakers : List SpeakerEntry) : List String :=
  (speakers.map (fun sp => sp.styles.map (styleLine sp.speakerName))).flatten

/-- The `except` clauses of `list_speakers`, in source order. -/
def listCatch (e : Exc) : String :=
  match e with
  | .connectError => connectErrMsg
  | .httpStatusError s => apiErrMsg s
  | e => genericErrMsg e

/-- Handler `list_speakers`: fetch the catalog and render one line per
(speaker, style) pair; all exceptions become strings.  The environment is
the outcome of the `GET /speakers` request (including `raise_for_status`
and JSON decoding). -/
def list_speakers (env : Outcome (List SpeakerEntry)) :
    List Effect × Except Exc String :=
  let t1 := [Effect.netGetSpeakers]
  match env with
  | .exc e => (t1, .ok (listCatch e))
  | .ok speakers =>
      (t1, .ok ("利用可能なスピーカー一覧:\n" ++
        String.intercalate "\n" (speakerLines speakers)))

/-! ### Tool handler: save_audio (lines 114–202) -/

/-- Environment for one `save_audio` call: outcomes of the audio-query
request, the synthesis request, the `mkdir`, and the file write. -/
structure SaveEnv where
  queryO : Outcome AudioQuery
  synthO : Outcome Bytes
  mkdirO : Outcome Unit
  writeO : Outcome Unit
deriving Repr, DecidableEq

/-- The `except` clauses of `save_audio`, in source order. -/
def saveCatch (output_file : PPath) (e : Exc) : String :=
  match e with
  | .connectError => connectErrMsg
  | .httpStatusError s => apiErrMsg s
  | .permissionError _ =>
      "エラー: ファイルの書き込み権限がありません: " ++ output_file.render
  | e => genericErrMsg e

/-- The body of `save_audio`'s `try` block, after validation and path
normalization.  Returns the effect trace and the handler's result string. -/
def saveTry (env : SaveEnv) (text : String) (speaker_id : Int)
    (sp pi inv vo : ℚ) (output_file : PPath) : List Effect × String :=
  let t1 := [Effect.netPostAudioQuery text speaker_id]
  match env.queryO with
  | .exc e => (t1, saveCatch output_file e)
  | .ok q =>
    let q2 := applyScales q sp pi inv vo
    let t2 := t1 ++ [Effect.netPostSynthesis speaker_id q2]
    match env.synthO with
    | .exc e => (t2, saveCatch output_file e)
    | .ok audio_data =>
      let t3 := t2 ++ [Effect.mkdirParents output_file.parent.render]
      match env.mkdirO with
      | .exc e => (t3, saveCatch output_file e)
      | .ok _ =>
        let t4 := t3 ++ [Effect.fileWrite output_file.render audio_data]
        match env.writeO with
        | .exc e => (t4, saveCatch output_file e)
        | .ok _ => (t4, "音声ファイルを保存しました: " ++ output_file.render)

/-- Handler `save_audio`: apply defaults, validate, normalize the output path
(outside the `try` block, so its `ValueError` is uncaught and surfaces as
`Except.error`), then run the `try` block. -/
def save_audio (env : SaveEnv) (text : String) (output_path : String)
    (speaker : Option Int) (speedArg pitchArg intonationArg volumeArg : Option ℚ) :
    List Effect × Except Exc String :=
  let speaker_id := speaker.getD SPEAKER_ID
  let sp := speedArg.getD 1
  let pi := pitchArg.getD 0
  let inv := intonationArg.getD 1
  let vo := volumeArg.getD 1
  match validateParams sp pi inv vo with
  | some err => ([], .ok err)
  | none =>
    match normalizeOutput output_path with
    | .error m => ([], .error (.valueError m))
    | .ok output_file =>
      let r := saveTry env text speaker_id sp pi inv vo output_file
      (r.1, .ok r.2)

/-! ### Tool handler: speak_text (lines 205–297) -/

/-- Environment for one `speak_text` call: outcomes of the audio-query
request, the synthesis request, the temporary-file write (yielding the
temporary path), and the player subprocess. -/
structure SpeakEnv where
  queryO : Outcome AudioQuery
  synthO : Outcome Bytes
  tempO : Outcome String
  playerO : Outcome Unit
deriving Repr, DecidableEq

/-- The `except` clauses of `speak_text`, in source order. -/
def speakCatch (e : Exc) : String :=
  match e with
  | .connectError => connectErrMsg
  | .httpStatusError s => apiErrMsg s
  | .fileNotFoundError _ =>
      "エラー: ffplayが見つかりません。FFmpegをインストールしてください。"
  | .calledProcessError c =>
      "エラー: 音声再生に失敗しました (code: " ++ toString c ++ ")"
  | e => genericErrMsg e

/-- Success message of `speak_text`: a preview of the first 20 characters. -/
def speakDoneMsg (text : String) : String :=
  "「" ++ text.take 20 ++ (if 20 < text.length then "..." else "") ++ "」を再生しました"

/-- Handler `speak_text`: apply defaults, validate, synthesize, write a temporary
file, run the player, and delete the temporary file in a `finally` block so
the deletion happens on every exit path of the player invocation. -/
def speak_text (env : SpeakEnv) (text : String)
    (speaker : Option Int) (speedArg pitchArg intonationArg volumeArg : Option ℚ) :
    List Effect × Except Exc String :=
  let speaker_id := speaker.getD SPEAKER_ID
  let sp := speedArg.getD 1
  let pi := pitchArg.getD 0
  let inv := intonationArg.getD 1
  let vo := volumeArg.getD 1
  match validateParams sp pi inv vo with
  | some err => ([], .ok err)
  | none =>
    let t1 := [Effect.netPostAudioQuery text speaker_id]
    match env.queryO with
    | .exc e => (t1, .ok (speakCatch e))
    | .ok q =>
      let q2 := applyScales q sp pi inv vo
      let t2 := t1 ++ [Effect.netPostSynthesis speaker_id q2]
      match env.synthO with
      | .exc e => (t2, .ok (speakCatch e))
      | .ok audio_data =>
        let t3 := t2 ++ [Effect.tempWrite audio_data]
        match env.tempO with
        | .exc e => (t3, .ok (speakCatch e))
        | .ok temp_path =>
          let t4 := t3 ++ [Effect.runPlayer temp_path, Effect.fileDelete temp_path]
          match env.playerO with
          | .exc e => (t4, .ok (speakCatch e))
          | .ok _ => (t4, .ok (speakDoneMsg text))

/-! ### Engine lifecycle (lines 29–78) -/

/-- Environment for the lifecycle guard: the result of the k-th
`is_engine_running` probe, whether `docker-compose.yml` exists, and the
outcome of the `docker compose up -d` subprocess. -/
structure LifeEnv where
  running : Nat → Bool
  composeFileExists : Bool
  composeO : Outcome Unit

/-- Function `start_engine`: no subprocess at all when `docker-compose.yml` is
missing; otherwise run `docker compose up -d` and report success. -/
def start_engine (env : LifeEnv) : List Effect × Bool :=
  if ¬ env.composeFileExists then ([], false)
  else
    match env.composeO with
    | .ok _ => ([Effect.composeUp], true)
    | .exc _ => ([Effect.composeUp], false)

/-- The wait loop of `ensure_engine_running`: up to `n` rounds of sleeping
one second and probing availability, where `k` indexes the next probe. -/
def pollLoop (env : LifeEnv) (k : Nat) : Nat → List Effect
  | 0 => []
  | n + 1 =>
    let t := [Effect.sleepOneSec, Effect.netGetVersion]
    if env.running k then t else t ++ pollLoop env (k + 1) n

/-- Function `ensure_engine_running`: skip everything when auto-start is disabled;
probe once; if the engine answers, stop; otherwise launch and poll for up
to 30 seconds. -/
def ensure_engine_running (autoStart : Bool) (env : LifeEnv) : List Effect :=
  if ¬ autoStart then []
  else
    let t0 := [Effect.netGetVersion]
    if env.running 0 then t0
    else
      let r := start_engine env
      if r.2 then t0 ++ r.1 ++ pollLoop env 1 30 else t0 ++ r.1

/-! ### Sample data used by concrete witnesses and counterexamples -/

/-- A concrete engine audio query used in concrete runs. -/
def sampleQuery : AudioQuery := ⟨1, 0, 1, 1, "accent_phrases"⟩

/-- A concrete audio payload used in concrete runs (the bytes of `RIFF`). -/
def samplePayload : Bytes := [82, 73, 70, 70]

/-- A fully succeeding environment for `save_audio`. -/
def okSaveEnv : SaveEnv := ⟨.ok sampleQuery, .ok samplePayload, .ok (), .ok ()⟩

/-- A fully succeeding environment for `speak_text`. -/
def okSpeakEnv : SpeakEnv := ⟨.ok sampleQuery, .ok samplePayload, .ok "/tmp/tmp123.wav", .ok ()⟩

/-! ### Validation lemmas -/

/-- The source's validation block returns exactly the error message of the
first out-of-domain parameter in the order speed, pitch, intonation, volume. -/
lemma validateParams_eq (sp pi inv vo : ℚ) :
    validateParams sp pi inv vo =
      (firstViolation sp pi inv vo).map (fun a => a.1.errMsg a.2) := by
  unfold validateParams firstViolation
  simp only [PName.inDomain, PName.lo, PName.hi]
  split_ifs <;> rfl

/-- No violation is reported exactly when every parameter is in its domain. -/
lemma firstViolation_eq_none_iff (sp pi inv vo : ℚ) :
    firstViolation sp pi inv vo = none ↔ validAll sp pi inv vo := by
  unfold firstViolation validAll
  split_ifs <;> simp_all

/-- A reported violation really is out of its domain. -/
lemma firstViolation_violates {sp pi inv vo : ℚ} {n : PName} {x : ℚ}
    (h : firstViolation sp pi inv vo = some (n, x)) : ¬ n.inDomain x := by
  unfold firstViolation at h
  split_ifs at h <;> simp_all

/-- With all parameters valid the validation block passes. -/
lemma validateParams_eq_none {sp pi inv vo : ℚ} (h : validAll sp pi inv vo) :
    validateParams sp pi inv vo = none := by
  rw [validateParams_eq, (firstViolation_eq_none_iff sp pi inv vo).mpr h]
  rfl

/-- With a violation the validation block returns its error message. -/
lemma validateParams_eq_some {sp pi inv vo : ℚ} {n : PName} {x : ℚ}
    (h : firstViolation sp pi inv vo = some (n, x)) :
    validateParams sp pi inv vo = some (n.errMsg x) := by
  rw [validateParams_eq, h]
  rfl

/-- With an out-of-domain parameter, `save_audio` stops at validation. -/
lemma save_audio_invalid (env : SaveEnv) (text output_path : String)
    (speaker : Option Int) (sA pA iA vA : Option ℚ) {n : PName} {x : ℚ}
    (h : firstViolation (sA.getD 1) (pA.getD 0) (iA.getD 1) (vA.getD 1) = some (n, x)) :
    save_audio env text output_path speaker sA pA iA vA = ([], .ok (n.errMsg x)) := by
  simp only [save_audio, validateParams_eq_some h]

/-- With an out-of-domain parameter, `speak_text` stops at validation. -/
lemma speak_text_invalid (env : SpeakEnv) (text : String)
    (speaker : Option Int) (sA pA iA vA : Option ℚ) {n : PName} {x : ℚ}
    (h : firstViolation (sA.getD 1) (pA.getD 0) (iA.getD 1) (vA.getD 1) = some (n, x)) :
    speak_text env text speaker sA pA iA vA = ([], .ok (n.errMsg x)) := by
  simp only [speak_text, validateParams_eq_some h]

/-- With valid parameters and a normalizable path, `save_audio` runs its
`try` block. -/
lemma save_audio_valid (env : SaveEnv) (text output_path : String)
    (speaker : Option Int) (sA pA iA vA : Option ℚ) {f : PPath}
    (hv : validAll (sA.getD 1) (pA.getD 0) (iA.getD 1) (vA.getD 1))
    (hn : normalizeOutput output_path = .ok f) :
    save_audio env text output_path speaker sA pA iA vA =
      ((saveTry env text (speaker.getD SPEAKER_ID)
          (sA.getD 1) (pA.getD 0) (iA.getD 1) (vA.getD 1) f).1,
       .ok (saveTry env text (speaker.getD SPEAKER_ID)
          (sA.getD 1) (pA.getD 0) (iA.getD 1) (vA.getD 1) f).2) := by
  simp only [save_audio, validateParams_eq_none hv, hn]

/-- Trace and result of a fully successful `save_audio` call. -/
lemma save_audio_success (env : SaveEnv) (text output_path : String)
    (speaker : Option Int) (sA pA iA vA : Option ℚ)
    (q : AudioQuery) (data : Bytes) (f : PPath)
    (hv : validAll (sA.getD 1) (pA.getD 0) (iA.getD 1) (vA.getD 1))
    (hn : normalizeOutput output_path = .ok f)
    (hq : env.queryO = .ok q) (hs : env.synthO = .ok data)
    (hm : env.mkdirO = .ok ()) (hw : env.writeO = .ok ()) :
    save_audio env text output_path speaker sA pA iA vA =
      ([.netPostAudioQuery text (speaker.getD SPEAKER_ID),
        .netPostSynthesis (speaker.getD SPEAKER_ID)
          (applyScales q (sA.getD 1) (pA.getD 0) (iA.getD 1) (vA.getD 1)),
        .mkdirParents f.parent.render,
        .fileWrite f.render data],
       .ok ("音声ファイルを保存しました: " ++ f.render)) := by
  rw [save_audio_valid env text output_path speaker sA pA iA vA hv hn]
  simp [saveTry, hq, hs, hm, hw]

/-! ### Claim theorems -/

/-- Claim C1: whenever any of speed, pitch, intonation, volume lies outside
its documented domain (after the `None`-to-default substitution), both
`save_audio` and `speak_text` return the error string naming an offending
parameter and its value — the string is built from the parameter's label and
the value — with an empty effect trace: no network call and no other work. -/
theorem claim_C1_out_of_range_rejected (envS : SaveEnv) (envT : SpeakEnv)
    (text output_path : String) (speaker : Option Int) (sA pA iA vA : Option ℚ)
    (h : ¬ validAll (sA.getD 1) (pA.getD 0) (iA.getD 1) (vA.getD 1)) :
    ∃ n x, ¬ PName.inDomain n x ∧
      save_audio envS text output_path speaker sA pA iA vA = ([], .ok (n.errMsg x)) ∧
      speak_text envT text speaker sA pA iA vA = ([], .ok (n.errMsg x)) := by
  rcases heq : firstViolation (sA.getD 1) (pA.getD 0) (iA.getD 1) (vA.getD 1) with _ | ⟨n, x⟩
  · exact absurd ((firstViolation_eq_none_iff _ _ _ _).mp heq) h
  · exact ⟨n, x, firstViolation_violates heq,
      save_audio_invalid envS text output_path speaker sA pA iA vA heq,
      speak_text_invalid envT text speaker sA pA iA vA heq⟩

/-- Witness for C1 at a concrete out-of-range speed. -/
theorem claim_C1_witness :
    ∃ n x, ¬ PName.inDomain n x ∧
      save_audio okSaveEnv "hello" "out" none (some 3) none none none
        = ([], .ok (PName.errMsg n x)) ∧
      speak_text okSpeakEnv "hello" none (some 3) none none none
        = ([], .ok (PName.errMsg n x)) :=
  claim_C1_out_of_range_rejected okSaveEnv okSpeakEnv "hello" "out" none
    (some 3) none none none
    (by norm_num [validAll, PName.inDomain, PName.lo, PName.hi])

/-- Claim C8: validation is performed in the fixed order speed, pitch,
intonation, volume; when several parameters are out of domain, the returned
error is exactly that of the first one in this order. -/
theorem claim_C8_validation_order (envS : SaveEnv) (envT : SpeakEnv)
    (text output_path : String) (speaker : Option Int) (sA pA iA vA : Option ℚ)
    (n : PName) (x : ℚ)
    (h : firstViolation (sA.getD 1) (pA.getD 0) (iA.getD 1) (vA.getD 1) = some (n, x)) :
    save_audio envS text output_path speaker sA pA iA vA = ([], .ok (n.errMsg x)) ∧
    speak_text envT text speaker sA pA iA vA = ([], .ok (n.errMsg x)) :=
  ⟨save_audio_invalid envS text output_path speaker sA pA iA vA h,
   speak_text_invalid envT text speaker sA pA iA vA h⟩

/-- Witness for C8: speed and volume are both out of range, the reported
error is speed's. -/
theorem claim_C8_witness :
    save_audio okSaveEnv "hello" "out" none (some 3) none none (some 5)
      = ([], .ok (PName.errMsg .speedP 3)) ∧
    speak_text okSpeakEnv "hello" none (some 3) none none (some 5)
      = ([], .ok (PName.errMsg .speedP 3)) :=
  claim_C8_validation_order okSaveEnv okSpeakEnv "hello" "out" none
    (some 3) none none (some 5) .speedP 3
    (by norm_num [firstViolation, PName.inDomain, PName.lo, PName.hi])

/-- Claim C2: once `speak_text` has synthesized audio and written it to a
temporary file, its effect trace is the same for every outcome of the player
subprocess — invocation of the player immediately followed by deletion of
the temporary file, whether the player succeeds, exits non-zero, or the
executable is missing. -/
theorem claim_C2_temp_file_deleted (env : SpeakEnv) (text : String)
    (speaker : Option Int) (sA pA iA vA : Option ℚ)
    (q : AudioQuery) (data : Bytes) (tp : String)
    (hv : validAll (sA.getD 1) (pA.getD 0) (iA.getD 1) (vA.getD 1))
    (hq : env.queryO = .ok q) (hs : env.synthO = .ok data) (ht : env.tempO = .ok tp) :
    (speak_text env text speaker sA pA iA vA).1 =
      [.netPostAudioQuery text (speaker.getD SPEAKER_ID),
       .netPostSynthesis (speaker.getD SPEAKER_ID)
         (applyScales q (sA.getD 1) (pA.getD 0) (iA.getD 1) (vA.getD 1)),
       .tempWrite data, .runPlayer tp, .fileDelete tp] := by
  cases hp : env.playerO <;>
    simp [speak_text, validateParams_eq_none hv, hq, hs, ht, hp]

/-- Witness for C2 with a player that exits non-zero: the trace still ends
with the deletion of the temporary file. -/
theorem claim_C2_witness :
    (speak_text ⟨.ok sampleQuery, .ok samplePayload, .ok "/tmp/t.wav",
        .exc (.calledProcessError 1)⟩ "hello" none none none none none).1 =
      [.netPostAudioQuery "hello" 8,
       .netPostSynthesis 8 (applyScales sampleQuery 1 0 1 1),
       .tempWrite samplePayload, .runPlayer "/tmp/t.wav", .fileDelete "/tmp/t.wav"] :=
  claim_C2_temp_file_deleted _ "hello" none none none none none
    sampleQuery samplePayload "/tmp/t.wav"
    (by norm_num [validAll, PName.inDomain, PName.lo, PName.hi]) rfl rfl rfl

/-- Claim C5: on a fully successful call, `save_audio` performs exactly the
query, the synthesis, the creation of missing parent directories, and one
write of exactly the engine's payload bytes to the normalized path, and
returns the success message naming that path. -/
theorem claim_C5_roundtrip (env : SaveEnv) (text output_path : String)
    (speaker : Option Int) (sA pA iA vA : Option ℚ)
    (q : AudioQuery) (data : Bytes) (f : PPath)
    (hv : validAll (sA.getD 1) (pA.getD 0) (iA.getD 1) (vA.getD 1))
    (hn : normalizeOutput output_path = .ok f)
    (hq : env.queryO = .ok q) (hs : env.synthO = .ok data)
    (hm : env.mkdirO = .ok ()) (hw : env.writeO = .ok ()) :
    save_audio env text output_path speaker sA pA iA vA =
      ([.netPostAudioQuery text (speaker.getD SPEAKER_ID),
        .netPostSynthesis (speaker.getD SPEAKER_ID)
          (applyScales q (sA.getD 1) (pA.getD 0) (iA.getD 1) (vA.getD 1)),
        .mkdirParents f.parent.render,
        .fileWrite f.render data],
       .ok ("音声ファイルを保存しました: " ++ f.render)) :=
  save_audio_success env text output_path speaker sA pA iA vA q data f hv hn hq hs hm hw

/-- Witness for C5: a concrete successful run writes the payload to
`x/y/clip.wav` and reports that path. -/
theorem claim_C5_witness :
    save_audio okSaveEnv "hello" "x/y/clip" (some 3) none none none none =
      ([.netPostAudioQuery "hello" 3,
        .netPostSynthesis 3 (applyScales sampleQuery 1 0 1 1),
        .mkdirParents "x/y",
        .fileWrite "x/y/clip.wav" samplePayload],
       .ok ("音声ファイルを保存しました: " ++ "x/y/clip.wav")) := by
  have h := claim_C5_roundtrip okSaveEnv "hello" "x/y/clip" (some 3)
    none none none none sampleQuery samplePayload ⟨false, ["x", "y", "clip.wav"]⟩
    (by norm_num [validAll, PName.inDomain, PName.lo, PName.hi])
    (by rfl) rfl rfl rfl rfl
  simpa [PPath.parent, PPath.render] using h

/-- Claim C9: the speaker identifier is never validated: for every integer
`sp`, with valid scale parameters both handlers proceed straight to the
network and pass `sp` unchanged to the `audio_query` and `synthesis`
requests. -/
theorem claim_C9_speaker_forwarded (sp : Int) (envS : SaveEnv) (envT : SpeakEnv)
    (text output_path : String) (sA pA iA vA : Option ℚ)
    (q q' : AudioQuery) (f : PPath)
    (hv : validAll (sA.getD 1) (pA.getD 0) (iA.getD 1) (vA.getD 1))
    (hn : normalizeOutput output_path = .ok f)
    (hq : envS.queryO = .ok q) (hq' : envT.queryO = .ok q') :
    (∃ r, (save_audio envS text output_path (some sp) sA pA iA vA).1 =
        .netPostAudioQuery text sp ::
        .netPostSynthesis sp
          (applyScales q (sA.getD 1) (pA.getD 0) (iA.getD 1) (vA.getD 1)) :: r) ∧
    (∃ r, (speak_text envT text (some sp) sA pA iA vA).1 =
        .netPostAudioQuery text sp ::
        .netPostSynthesis sp
          (applyScales q' (sA.getD 1) (pA.getD 0) (iA.getD 1) (vA.getD 1)) :: r) := by
  constructor
  · rw [save_audio_valid envS text output_path (some sp) sA pA iA vA hv hn]
    cases hs : envS.synthO <;> cases hm : envS.mkdirO <;> cases hw : envS.writeO <;>
      simp [saveTry, hq, hs, hm, hw]
  · cases hs : envT.synthO <;> cases ht : envT.tempO <;> cases hp : envT.playerO <;>
      simp [speak_text, validateParams_eq_none hv, hq', hs, ht, hp]

/-- Witness for C9 at a negative, out-of-catalog speaker identifier. -/
theorem claim_C9_witness :
    (∃ r, (save_audio okSaveEnv "hello" "out.wav" (some (-999999)) none none none none).1 =
        .netPostAudioQuery "hello" (-999999) ::
        .netPostSynthesis (-999999) (applyScales sampleQuery 1 0 1 1) :: r) ∧
    (∃ r, (speak_text okSpeakEnv "hello" (some (-999999)) none none none none).1 =
        .netPostAudioQuery "hello" (-999999) ::
        .netPostSynthesis (-999999) (applyScales sampleQuery 1 0 1 1) :: r) :=
  claim_C9_speaker_forwarded (-999999) okSaveEnv okSpeakEnv "hello" "out.wav"
    none none none none sampleQuery sampleQuery ⟨false, ["out.wav"]⟩
    (by norm_num [validAll, PName.inDomain, PName.lo, PName.hi])
    (by rfl) rfl rfl

/-- Claim C6: with auto-start disabled `ensure_engine_running` performs no
effect at all; with auto-start enabled and the engine already answering the
availability probe, the trace is that single probe — in particular no
subprocess invocation. -/
theorem claim_C6_lifecycle_guard (env : LifeEnv) :
    ensure_engine_running false env = [] ∧
    (env.running 0 = true →
      ensure_engine_running true env = [Effect.netGetVersion] ∧
      ∀ e ∈ ensure_engine_running true env, e.isSubprocess = false) := by
  refine ⟨by simp [ensure_engine_running], fun h => ?_⟩
  have hrun : ensure_engine_running true env = [Effect.netGetVersion] := by
    simp [ensure_engine_running, h]
  refine ⟨hrun, ?_⟩
  rw [hrun]
  intro e he
  simp only [List.mem_singleton] at he
  subst he
  rfl

/-- Witness for C6 at a concrete environment with a responsive engine. -/
theorem claim_C6_witness :
    ensure_engine_running false ⟨fun _ => true, true, .ok ()⟩ = [] ∧
    ensure_engine_running true ⟨fun _ => true, true, .ok ()⟩ = [Effect.netGetVersion] :=
  ⟨(claim_C6_lifecycle_guard ⟨fun _ => true, true, .ok ()⟩).1,
   ((claim_C6_lifecycle_guard ⟨fun _ => true, true, .ok ()⟩).2 rfl).1⟩

/-- Claim C7: `list_speakers` renders one line per (speaker, style) pair —
the line count is the total style count, each pair's line (carrying the
display name, style name and numeric style id) occurs in the output, and a
catalog with one speaker having two styles yields exactly the two lines. -/
theorem claim_C7_one_line_per_style :
    (∀ speakers : List SpeakerEntry,
      (speakerLines speakers).length = (speakers.map (fun sp => sp.styles.length)).sum) ∧
    (∀ (speakers : List SpeakerEntry) (sp : SpeakerEntry) (st : SpeakerStyle),
      sp ∈ speakers → st ∈ sp.styles →
      styleLine sp.speakerName st ∈ speakerLines speakers) ∧
    (list_speakers (.ok [⟨"Zundamon", [⟨"Normal", 3⟩, ⟨"Sweet", 1⟩]⟩])
      = ([Effect.netGetSpeakers],
         .ok ("利用可能なスピーカー一覧:\n" ++
           "- Zundamon（Normal）: speaker_id=3\n- Zundamon（Sweet）: speaker_id=1"))) := by
  refine ⟨?_, ?_, ?_⟩
  · intro speakers
    simp [speakerLines, Function.comp_def]
  · intro speakers sp st hsp hst
    exact List.mem_flatten.mpr
      ⟨sp.styles.map (styleLine sp.speakerName),
       List.mem_map_of_mem _ hsp, List.mem_map_of_mem _ hst⟩
  · rfl

/-- Witness for C7: a concrete (speaker, style) pair's line is in the output. -/
theorem claim_C7_witness :
    styleLine "Zundamon" ⟨"Sweet", 1⟩ ∈
      speakerLines [⟨"Zundamon", [⟨"Normal", 3⟩, ⟨"Sweet", 1⟩]⟩] :=
  claim_C7_one_line_per_style.2.1
    [⟨"Zundamon", [⟨"Normal", 3⟩, ⟨"Sweet", 1⟩]⟩]
    ⟨"Zundamon", [⟨"Normal", 3⟩, ⟨"Sweet", 1⟩]⟩ ⟨"Sweet", 1⟩
    (by decide) (by decide)

/-! ### Suffix lemmas for the normalization claims -/

/-- A nonempty string has a nonempty character list. -/
lemma toList_ne_nil {s : String} (h : s ≠ "") : s.toList ≠ [] := by
  intro hl
  exact h (String.ext hl)

/-- The last dot of `pre ++ ".wav"` is the dot of `".wav"`. -/
lemma lastDotIdx_append_wav (pre : List Char) :
    lastDotIdx (pre ++ ['.', 'w', 'a', 'v']) = some pre.length := by
  induction pre with
  | nil => rfl
  | cons c cs ih => simp [lastDotIdx, ih]

/-- Names of the shape `pre ++ ".wav"` with `pre` nonempty have suffix `.wav`. -/
lemma suffixChars_append_wav (pre : List Char) (h : pre ≠ []) :
    suffixChars (pre ++ ['.', 'w', 'a', 'v']) = ['.', 'w', 'a', 'v'] := by
  have hl : 0 < pre.length := List.length_pos.mpr h
  have hc : 0 < pre.length ∧ pre.length + 1 < (pre ++ ['.', 'w', 'a', 'v']).length := by
    simp only [List.length_append, List.length_cons, List.length_nil]
    omega
  simp only [suffixChars, lastDotIdx_append_wav, if_pos hc]
  exact List.drop_left pre ['.', 'w', 'a', 'v']

/-- A nonempty computed suffix comes from a dot at an interior index. -/
lemma suffixChars_spec {cs : List Char} (h : suffixChars cs ≠ []) :
    ∃ i, 0 < i ∧ i + 1 < cs.length ∧ suffixChars cs = cs.drop i := by
  cases hld : lastDotIdx cs with
  | none => simp only [suffixChars, hld] at h; exact absurd rfl h
  | some i =>
    simp only [suffixChars, hld] at h ⊢
    split_ifs at h ⊢ with hc
    · exact ⟨i, hc.1, hc.2, rfl⟩
    · exact absurd rfl h

/-- Every name produced by `with_suffix(".wav")` is a nonempty stem followed
by `.wav`. -/
lemma withSuffixWav_name {p q : PPath} (h : p.withSuffixWav = .ok q) :
    ∃ pre : List Char, pre ≠ [] ∧ q.name.toList = pre ++ ['.', 'w', 'a', 'v'] := by
  simp only [PPath.withSuffixWav] at h
  split_ifs at h with hnm ho
  · rw [Except.ok.injEq] at h
    subst h
    refine ⟨p.name.toList, toList_ne_nil hnm, ?_⟩
    show ((p.comps.dropLast ++ [p.name ++ ".wav"]).getLast?.getD "").toList
        = p.name.toList ++ ['.', 'w', 'a', 'v']
    rw [List.getLast?_concat]
    show (p.name ++ ".wav").data = p.name.data ++ ['.', 'w', 'a', 'v']
    rw [String.data_append]
  · rw [Except.ok.injEq] at h
    subst h
    have hne : suffixChars p.name.toList ≠ [] := by
      simpa [List.isEmpty_iff] using ho
    obtain ⟨i, hi0, hilen, heq⟩ := suffixChars_spec hne
    have hle : i ≤ p.name.toList.length := by omega
    have hlen : (p.name.toList.take i).length = i := by
      rw [List.length_take]
      omega
    refine ⟨p.name.toList.take i, ?_, ?_⟩
    · intro hnil
      rw [hnil] at hlen
      simp at hlen
      omega
    · show ((p.comps.dropLast ++
            [String.mk (p.name.toList.take
              (p.name.toList.length - (suffixChars p.name.toList).length)) ++
              ".wav"]).getLast?.getD "").toList
          = p.name.toList.take i ++ ['.', 'w', 'a', 'v']
      rw [List.getLast?_concat, heq, List.length_drop, Nat.sub_sub_self hle]
      show (String.mk (p.name.toList.take i) ++ ".wav").data
          = p.name.toList.take i ++ ['.', 'w', 'a', 'v']
      rw [String.data_append]

/-- Any `ok` result of the normalization step has (case-insensitive) suffix
`.wav`. -/
lemma normPath_ok_suffix {p q : PPath} (h : normPath p = .ok q) :
    lowerStr q.suffix = ".wav" := by
  unfold normPath at h
  split_ifs at h with hs
  · rw [Except.ok.injEq] at h
    subst h
    exact hs
  · obtain ⟨pre, hne, hql⟩ := withSuffixWav_name h
    have hsfx : suffixChars q.name.toList = ['.', 'w', 'a', 'v'] := by
      rw [hql]
      exact suffixChars_append_wav pre hne
    show lowerStr (String.mk (suffixChars q.name.toList)) = ".wav"
    rw [hsfx]
    rfl

/-- Claim C10: the output-path normalization step is idempotent — running it
on an already-normalized path is the identity (a second application equals
the first, also through the uncaught-`ValueError` branch) because every
normalized path has a suffix that is `.wav` after lowercasing. -/
theorem claim_C10_normalize_idempotent :
    (∀ p : PPath, (normPath p).bind normPath = normPath p) ∧
    (∀ p q : PPath, normPath p = .ok q → lowerStr q.suffix = ".wav") := by
  refine ⟨fun p => ?_, fun p q h => normPath_ok_suffix h⟩
  cases hn : normPath p with
  | error m => simp [Except.bind]
  | ok q =>
    have hq : normPath q = .ok q := by
      unfold normPath
      rw [if_pos (normPath_ok_suffix hn)]
    simp [Except.bind, hq]

/-- Witness for C10: normalizing `clip.txt` yields `clip.wav`, whose suffix
lowercases to `.wav`. -/
theorem claim_C10_witness :
    lowerStr (PPath.suffix ⟨false, ["clip.wav"]⟩) = ".wav" :=
  claim_C10_normalize_idempotent.2 ⟨false, ["clip.txt"]⟩ ⟨false, ["clip.wav"]⟩ (by rfl)

/-- Counterexample to claim C3 as stated: with `output_path="clip.WAV"` the
file is written to `clip.WAV` — the extension already matches `.wav`
case-insensitively, so there is no rename and the result is not the path
`clip.wav` the claim names. -/
theorem claim_C3_counterexample :
    save_audio okSaveEnv "hello" "clip.WAV" none none none none none =
      ([.netPostAudioQuery "hello" 8,
        .netPostSynthesis 8 (applyScales sampleQuery 1 0 1 1),
        .mkdirParents ".",
        .fileWrite "clip.WAV" samplePayload],
       .ok ("音声ファイルを保存しました: " ++ "clip.WAV")) ∧
    "clip.WAV" ≠ "clip.wav" := by
  constructor
  · exact save_audio_success okSaveEnv "hello" "clip.WAV" none none none none none
      sampleQuery samplePayload ⟨false, ["clip.WAV"]⟩
      (by norm_num [validAll, PName.inDomain, PName.lo, PName.hi])
      (by rfl) rfl rfl rfl rfl
  · decide

/-- Claim C3 as amended: if the path's extension is not `.wav` under the
case-insensitive comparison it is replaced with `.wav` (`x/y/clip` is saved
at `x/y/clip.wav`), and a path whose extension already matches, such as
`clip.WAV`, is kept entirely unchanged (saved at `clip.WAV`, no rename). -/
theorem claim_C3_extension_normalization :
    (∀ p : PPath, lowerStr p.suffix = ".wav" → normPath p = .ok p) ∧
    save_audio okSaveEnv "hello" "x/y/clip" none none none none none =
      ([.netPostAudioQuery "hello" 8,
        .netPostSynthesis 8 (applyScales sampleQuery 1 0 1 1),
        .mkdirParents "x/y",
        .fileWrite "x/y/clip.wav" samplePayload],
       .ok ("音声ファイルを保存しました: " ++ "x/y/clip.wav")) ∧
    save_audio okSaveEnv "hello" "clip.WAV" none none none none none =
      ([.netPostAudioQuery "hello" 8,
        .netPostSynthesis 8 (applyScales sampleQuery 1 0 1 1),
        .mkdirParents ".",
        .fileWrite "clip.WAV" samplePayload],
       .ok ("音声ファイルを保存しました: " ++ "clip.WAV")) := by
  refine ⟨fun p h => ?_, ?_, ?_⟩
  · unfold normPath
    rw [if_pos h]
  · exact save_audio_success okSaveEnv "hello" "x/y/clip" none none none none none
      sampleQuery samplePayload ⟨false, ["x", "y", "clip.wav"]⟩
      (by norm_num [validAll, PName.inDomain, PName.lo, PName.hi])
      (by rfl) rfl rfl rfl rfl
  · exact save_audio_success okSaveEnv "hello" "clip.WAV" none none none none none
      sampleQuery samplePayload ⟨false, ["clip.WAV"]⟩
      (by norm_num [validAll, PName.inDomain, PName.lo, PName.hi])
      (by rfl) rfl rfl rfl rfl

/-- Witness for the amended C3: a path already suffixed `.wav` is untouched. -/
theorem claim_C3_witness :
    normPath ⟨false, ["a.wav"]⟩ = .ok ⟨false, ["a.wav"]⟩ :=
  claim_C3_extension_normalization.1 ⟨false, ["a.wav"]⟩ (by decide)

/-- Counterexample to claim C4 as stated: with `output_path="."` (a path
with an empty final name) and otherwise valid inputs, `save_audio` raises an
uncaught `ValueError` from the path normalization, which sits outside its
`try` block — the call does not return a string. -/
theorem claim_C4_counterexample :
    save_audio okSaveEnv "hello" "." none none none none none
      = ([], .error (.valueError "Invalid name ")) := by
  have hval : validateParams 1 0 1 1 = none := by
    norm_num [validateParams]
  have hn : normalizeOutput "." = .error "Invalid name " := by rfl
  simp [save_audio, Option.getD_none, hval, hn]

/-- Claim C4 as amended: `list_speakers` and `speak_text` return a string on
every input and environment outcome, and `save_audio` returns a string on
every input whose output path normalizes successfully; only the uncaught
`ValueError` of normalizing a path with an empty final name escapes. -/
theorem claim_C4_errors_become_strings :
    (∀ env : Outcome (List SpeakerEntry), ∃ s, (list_speakers env).2 = .ok s) ∧
    (∀ (env : SpeakEnv) (text : String) (speaker : Option Int) (sA pA iA vA : Option ℚ),
      ∃ s, (speak_text env text speaker sA pA iA vA).2 = .ok s) ∧
    (∀ (env : SaveEnv) (text output_path : String) (speaker : Option Int)
        (sA pA iA vA : Option ℚ) (f : PPath),
      normalizeOutput output_path = .ok f →
      ∃ s, (save_audio env text output_path speaker sA pA iA vA).2 = .ok s) := by
  refine ⟨?_, ?_, ?_⟩
  · intro env
    cases env <;> exact ⟨_, rfl⟩
  · intro env text speaker sA pA iA vA
    obtain ⟨qO, sO, tO, pO⟩ := env
    cases hv : validateParams (sA.getD 1) (pA.getD 0) (iA.getD 1) (vA.getD 1) <;>
      cases qO <;> cases sO <;> cases tO <;> cases pO <;>
        simp [speak_text, hv]
  · intro env text output_path speaker sA pA iA vA f hn
    obtain ⟨qO, sO, mO, wO⟩ := env
    cases hv : validateParams (sA.getD 1) (pA.getD 0) (iA.getD 1) (vA.getD 1) <;>
      cases qO <;> cases sO <;> cases mO <;> cases wO <;>
        simp [save_audio, saveTry, hv, hn]

/-- Witness for the amended C4 on a concrete normalizable input. -/
theorem claim_C4_witness :
    ∃ s, (save_audio okSaveEnv "hello" "out.wav" none none none none none).2 = .ok s :=
  claim_C4_errors_become_strings.2.2 okSaveEnv "hello" "out.wav" none
    none none none none ⟨false, ["out.wav"]⟩ (by rfl)

end Voicevox
